import Mathlib

/-!
Shallow embedding of the expiring-record lifecycle engine of `src/main.py`
(a FastAPI temporary-content-sharing service).

Modelling choices:
* Timestamps (`datetime.now(timezone.utc)`, `expires_at`, `created_at`) are
  modelled as `Int` seconds; `timedelta(seconds=ttl)` is integer addition and
  `int((a - b).total_seconds())` is the exact difference `a - b`.
* The Mongo collection `db["page"]` is a `List PageDoc` in insertion order:
  `find_one` is `List.find?`, `count_documents` counts a filter,
  `insert_one` appends, `delete_one({"_id": id})` removes the first document
  with that `_id` (`List.eraseP`), and `delete_many({"_id": {"$in": ids}})`
  filters out every document whose `_id` is in the batch.
* The filesystem is the list of existing file paths; `os.path.isfile` is
  membership, `os.remove` removes the path.  `os.getcwd()` is an arbitrary
  string parameter `cwd`, and `UPLOAD_DIR = os.path.join(os.getcwd(), "uploads")`.
* `secrets.token_urlsafe` is a stream of candidate tokens supplied as a list
  (the loop in `generate_slug` consumes them in order and is modelled as a
  fuelled recursion returning `Option`).
-/

namespace TempShare

/-- Timestamps in whole seconds (UTC). -/
abbrev Time := Int

/-- A document of the Mongo collection `db["page"]` as built in `create_page`:
`_id`, `slug`, `html`, `created_at`, `expires_at`, `assets`. -/
structure PageDoc where
  id : Nat
  slug : String
  html : String
  created_at : Time
  expires_at : Time
  assets : List String
deriving DecidableEq, Repr

/-- The shared mutable state: the `page` collection and the filesystem
(the set of existing file paths, as a list). -/
structure ServerState where
  pages : List PageDoc
  fs : List String
deriving DecidableEq, Repr

/-! ### Asset path resolution and deletion (lines 52-63 and 181-190 of main.py) -/

/-- Python `asset.lstrip("/")`: drop every leading slash. -/
def lstripSlash (s : String) : String :=
  (s.toList.dropWhile (fun c => c = '/')).asString

/-- Python `os.path.basename`: the component after the last slash. -/
def basename (s : String) : String :=
  ((s.toList.reverse.takeWhile (fun c => c ≠ '/')).reverse).asString

/-- Python `os.path.join` for a directory (no trailing slash) and a relative part. -/
def joinPath (a b : String) : String :=
  a ++ "/" ++ b

/-- The constant `UPLOAD_DIR = os.path.join(os.getcwd(), "uploads")` (line 19). -/
def uploadDir (cwd : String) : String :=
  joinPath cwd "uploads"

/-- Effect of `os.remove path` on the modelled filesystem. -/
def removeFile (fs : List String) (p : String) : List String :=
  fs.filter (fun q => q ≠ p)

/-- The path that the asset-cleanup code resolves and would delete, if any:
`path = os.path.join(os.getcwd(), asset.lstrip("/"))`, falling back to
`os.path.join(UPLOAD_DIR, os.path.basename(relative))` when the first
candidate is not a file, and `none` when neither exists. -/
def resolveAsset (cwd : String) (fs : List String) (asset : String) : Option String :=
  let relative := lstripSlash asset
  let path := joinPath cwd relative
  if path ∈ fs then some path
  else
    let path2 := joinPath (uploadDir cwd) (basename relative)
    if path2 ∈ fs then some path2 else none

/-- One asset deletion, as in both the sweep (lines 53-63) and the lazy expiry
path (lines 182-190): resolve the reference, remove the file if it exists,
swallow every error (the function is total and never fails). -/
def deleteAsset (cwd : String) (fs : List String) (asset : String) : List String :=
  match resolveAsset cwd fs asset with
  | some path => removeFile fs path
  | none => fs

/-- Delete every asset of one document, in order. -/
def deleteAssets (cwd : String) (fs : List String) (assets : List String) : List String :=
  assets.foldl (fun acc a => deleteAsset cwd acc a) fs

/-! ### Slug generation (lines 138-144 of main.py) -/

/-- The character class kept by `re.sub(r"[^A-Za-z0-9]", "", slug)`. -/
def isAlnumChar (c : Char) : Bool :=
  c.isAlpha || c.isDigit

/-- The sanitization `re.sub(r"[^A-Za-z0-9]", "", tok)[:n]`: strip non-alphanumerics, truncate. -/
def sanitizeSlug (tok : String) (n : Nat) : String :=
  ((tok.toList.filter isAlnumChar).take n).asString

/-- The query `db["page"].count_documents({"slug": slug})`. -/
def countSlug (pages : List PageDoc) (slug : String) : Nat :=
  (pages.filter (fun d => d.slug = slug)).length

/-- Function `generate_slug(length)` (lines 138-144): loop over candidate tokens from
`secrets.token_urlsafe(length)`, sanitize, and accept the first candidate that
is non-empty and absent from the store.  The unbounded `while True` is fuelled
by the finite token stream, returning `none` when it is exhausted. -/
def generate_slug (n : Nat) (pages : List PageDoc) : List String → Option String
  | [] => none
  | tok :: toks =>
    let slug := sanitizeSlug tok n
    if slug ≠ "" ∧ countSlug pages slug = 0 then some slug
    else generate_slug n pages toks

/-! ### Page creation (lines 147-168 of main.py) -/

/-- The constant `DEFAULT_TTL_SECONDS = 600` (line 18). -/
def DEFAULT_TTL_SECONDS : Int := 600

/-- The request body `PageCreate` (lines 36-39): `html`, optional
`ttl_seconds` (pydantic-validated to `[60, 86400]` when present), `assets`. -/
structure PageCreate where
  html : String
  ttl_seconds : Option Int
  assets : List String
deriving DecidableEq, Repr

/-- The expression `payload.ttl_seconds or DEFAULT_TTL_SECONDS` (line 150): Python `or` takes
the default when the field is `None` or falsy (`0`). -/
def ttlOf (payload : PageCreate) : Int :=
  match payload.ttl_seconds with
  | none => DEFAULT_TTL_SECONDS
  | some t => if t = 0 then DEFAULT_TTL_SECONDS else t

/-- The JSON body returned by `create_page` (lines 163-168). -/
structure CreateResponse where
  slug : String
  url : String
  expires_at : Time
  ttl_seconds : Int
deriving DecidableEq, Repr

/-- Handler `create_page` (lines 147-168): compute `expires_at = now + ttl`, generate
a slug, insert the document, return the response.  `newId` is the Mongo `_id`
assigned to the inserted document; `toks` fuels `generate_slug`. -/
def create_page (payload : PageCreate) (now : Time) (newId : Nat)
    (toks : List String) (s : ServerState) : Option (CreateResponse × ServerState) :=
  let ttl := ttlOf payload
  let expires_at := now + ttl
  match generate_slug 8 s.pages toks with
  | none => none
  | some slug =>
    let doc : PageDoc :=
      { id := newId, slug := slug, html := payload.html,
        created_at := now, expires_at := expires_at, assets := payload.assets }
    some ({ slug := slug, url := "/p/" ++ slug,
            expires_at := expires_at, ttl_seconds := ttl },
          { pages := s.pages ++ [doc], fs := s.fs })

/-! ### Read as data: `get_page` (lines 171-200 of main.py) -/

/-- Outcome of `GET /api/pages/slug`: 404, 410, or the JSON payload
(`slug`, `html`, `expires_at`, `remaining_seconds`, `assets`). -/
inductive GetResult where
  | notFound : GetResult
  | expired : GetResult
  | ok (slug html : String) (expires_at : Time) (remaining_seconds : Int)
      (assets : List String) : GetResult
deriving DecidableEq, Repr

/-- Handler `get_page` (lines 171-200): look up by slug (404 when absent); when
`expires_at <= now` delete the document, best-effort delete its assets, and
answer 410; otherwise answer the payload with
`remaining_seconds = max(0, int((expires_at - now).total_seconds()))`. -/
def get_page (cwd slug : String) (now : Time) (s : ServerState) :
    GetResult × ServerState :=
  match s.pages.find? (fun d => d.slug = slug) with
  | none => (.notFound, s)
  | some doc =>
    if doc.expires_at ≤ now then
      let pages := s.pages.eraseP (fun d => d.id = doc.id)
      let fs := deleteAssets cwd s.fs doc.assets
      (.expired, { pages := pages, fs := fs })
    else
      let remaining := doc.expires_at - now
      (.ok doc.slug doc.html doc.expires_at (max 0 remaining) doc.assets, s)

/-! ### Read as render: `view_page` (lines 203-266 of main.py) -/

/-- The corner timer/copy-link snippet (lines 227-248), after
`.format(remaining=remaining)` and `.replace("__REM__", str(remaining))`. -/
def timerHtml (remaining : Int) : String :=
  "\n    <div id=\"_meta\" style=\"position:fixed;right:8px;bottom:8px;z-index:9999;font:12px/1.2 system-ui,-apple-system,Segoe UI,Roboto,Helvetica,Arial,sans-serif;color:#444;background:rgba(255,255,255,0.7);backdrop-filter:saturate(1.2) blur(2px);padding:6px 8px;border-radius:6px\">\n      <span id=\"_time\">" ++ toString remaining ++
  "</span>s\n      <button id=\"_copy\" style=\"margin-left:8px;background:#000;color:#fff;border:none;padding:4px 6px;border-radius:4px;cursor:pointer;font-size:12px\">Copy link</button>\n    </div>\n    <script>\n      (function()\x7b\n        var t = \x7bremaining: " ++ toString remaining ++
  "\x7d;\n        var el = document.getElementById(\x27_time\x27);\n        var iv = setInterval(function()\x7b\n          if(!el) return;\n          if(t.remaining <= 0)\x7b clearInterval(iv); location.reload(); return; \x7d\n          t.remaining -= 1; el.textContent = t.remaining;\n        \x7d, 1000);\n        document.getElementById(\x27_copy\x27).addEventListener(\x27click\x27, async function()\x7b\n          try \x7b await navigator.clipboard.writeText(window.location.href); this.textContent=\x27Copied\x27; setTimeout(()=>this.textContent=\x27Copy link\x27,1200);\x7d catch(e)\x7b\x7d\n        \x7d);\n      \x7d)();\n    </script>\n    "

/-- The full page wrapper (lines 251-265) around the raw content and timer. -/
def renderPageHtml (content timer : String) : String :=
  "\n    <!doctype html>\n    <html>\n      <head>\n        <meta charset=\"utf-8\" />\n        <meta name=\"viewport\" content=\"width=device-width, initial-scale=1\" />\n        <title>Shared Content</title>\n        <style>html,body\x7bbackground:#fff;margin:0;padding:0\x7dimg\x7bmax-width:100%;height:auto\x7d</style>\n      </head>\n      <body>\n        " ++ content ++ "\n        " ++ timer ++ "\n      </body>\n    </html>\n    "

/-- The static 410 body returned by `view_page` (line 222). -/
def expiredHtmlBody : String :=
  "<html><body><div style=\x27font-family:system-ui;padding:16px\x27>This temporary page has expired.</div></body></html>"

/-- Outcome of `GET /p/slug`: 404, a 410 HTML body, or a 200 HTML body. -/
inductive ViewResult where
  | notFound : ViewResult
  | expired (body : String) : ViewResult
  | ok (body : String) : ViewResult
deriving DecidableEq, Repr

/-- Handler `view_page` (lines 203-266): same lookup / lazy-expiry / deletion logic as
`get_page`, but rendering HTML (the alive branch uses the raw
`remaining = int((expires_at - now).total_seconds())`, no clamp). -/
def view_page (cwd slug : String) (now : Time) (s : ServerState) :
    ViewResult × ServerState :=
  match s.pages.find? (fun d => d.slug = slug) with
  | none => (.notFound, s)
  | some doc =>
    if doc.expires_at ≤ now then
      let pages := s.pages.eraseP (fun d => d.id = doc.id)
      let fs := deleteAssets cwd s.fs doc.assets
      (.expired expiredHtmlBody, { pages := pages, fs := fs })
    else
      let remaining := doc.expires_at - now
      (.ok (renderPageHtml doc.html (timerHtml remaining)), s)

/-! ### The eager sweep (lines 44-69 of main.py) -/

/-- The query `db["page"].find({"expires_at": {"$lte": now}})` (line 48): the snapshot
of currently-expired documents. -/
def sweepSnapshot (now : Time) (pages : List PageDoc) : List PageDoc :=
  pages.filter (fun d => d.expires_at ≤ now)

/-- The call `db["page"].delete_many({"_id": {"$in": ids}})` (line 65): bulk delete by
identity. -/
def delete_many (ids : List Nat) (pages : List PageDoc) : List PageDoc :=
  pages.filter (fun d => d.id ∉ ids)

/-- One body of `cleanup_loop` (lines 46-68): snapshot `now`, fetch the
expired documents, delete their assets, bulk-delete the snapshot by `_id`
(all under `if expired:`). -/
def cleanup_cycle (cwd : String) (now : Time) (s : ServerState) : ServerState :=
  let expired := sweepSnapshot now s.pages
  if expired.isEmpty then s
  else
    let fs := expired.foldl (fun acc d => deleteAssets cwd acc d.assets) s.fs
    let pages := delete_many (expired.map (fun d => d.id)) s.pages
    { pages := pages, fs := fs }

end TempShare

namespace TempShare

/-! ### Helper lemmas -/

/-- A list of length at most one has at most one member. -/
theorem mem_singleton_of_length_le_one {α : Type} {l : List α} (h : l.length ≤ 1)
    {a b : α} (ha : a ∈ l) (hb : b ∈ l) : a = b := by
  match l with
  | [] => cases ha
  | [x] =>
    rw [List.mem_singleton] at ha hb
    rw [ha, hb]
  | x :: y :: t => simp at h

/-- Membership survives backwards through `eraseP`. -/
theorem mem_of_mem_eraseP {α : Type} {p : α → Bool} {l : List α} {a : α}
    (h : a ∈ l.eraseP p) : a ∈ l :=
  List.Sublist.mem h (List.eraseP_sublist l)

/-- When the `_id`s of the collection are distinct, `delete_one({"_id": doc._id})`
really removes `doc` from the collection. -/
theorem not_mem_eraseP_id {pages : List PageDoc} {doc : PageDoc}
    (hnodup : (pages.map (fun d => d.id)).Nodup) (hmem : doc ∈ pages) :
    doc ∉ pages.eraseP (fun d => d.id = doc.id) := by
  induction pages with
  | nil => simp
  | cons x xs ih =>
    simp only [List.map_cons, List.nodup_cons] at hnodup
    by_cases hx : x.id = doc.id
    · simp only [List.eraseP_cons, hx, decide_True, cond_true]
      intro hdoc
      exact hnodup.1 (hx ▸ List.mem_map_of_mem (fun d => d.id) hdoc)
    · simp only [List.eraseP_cons, hx, decide_False, cond_false]
      have hdx : doc ≠ x := by
        intro heq
        exact hx (by rw [heq])
      have hmem' : doc ∈ xs := by
        rcases List.mem_cons.mp hmem with h | h
        · exact absurd h.symm hdx.symm
        · exact h
      intro hdoc
      rcases List.mem_cons.mp hdoc with h | h
      · exact hdx h
      · exact ih hnodup.2 hmem' h

end TempShare

namespace TempShare

/-- Inversion for `generate_slug`: an accepted slug is the sanitization of one
of the candidate tokens, is non-empty, and has zero matches in the store. -/
theorem generate_slug_inv {n : Nat} {pages : List PageDoc} {toks : List String}
    {s : String} (h : generate_slug n pages toks = some s) :
    s ≠ "" ∧ countSlug pages s = 0 ∧ ∃ tok ∈ toks, s = sanitizeSlug tok n := by
  induction toks with
  | nil => simp [generate_slug] at h
  | cons tok toks ih =>
    rw [generate_slug] at h
    by_cases hc : sanitizeSlug tok n ≠ "" ∧ countSlug pages (sanitizeSlug tok n) = 0
    · rw [if_pos hc] at h
      have hs : sanitizeSlug tok n = s := by injection h
      subst hs
      exact ⟨hc.1, hc.2, tok, List.mem_cons_self tok toks, rfl⟩
    · rw [if_neg hc] at h
      rcases ih h with ⟨h1, h2, tok', htok', h3⟩
      exact ⟨h1, h2, tok', List.mem_cons_of_mem tok htok', h3⟩

/-- A zero `count_documents({"slug": s})` means no stored document has slug `s`. -/
theorem countSlug_eq_zero {pages : List PageDoc} {s : String}
    (h : countSlug pages s = 0) : ∀ d ∈ pages, d.slug ≠ s := by
  intro d hd
  have hnil : pages.filter (fun d => d.slug = s) = [] :=
    List.length_eq_zero.mp h
  have := List.filter_eq_nil_iff.mp hnil d hd
  simpa using this

/-- Inversion for `create_page`: the response and the successor state. -/
theorem create_page_inv {payload : PageCreate} {now : Time} {newId : Nat}
    {toks : List String} {s : ServerState} {r : CreateResponse} {s1 : ServerState}
    (h : create_page payload now newId toks s = some (r, s1)) :
    generate_slug 8 s.pages toks = some r.slug ∧
    r = { slug := r.slug, url := "/p/" ++ r.slug,
          expires_at := now + ttlOf payload, ttl_seconds := ttlOf payload } ∧
    s1 = { pages := s.pages ++
             [{ id := newId, slug := r.slug, html := payload.html,
                created_at := now, expires_at := now + ttlOf payload,
                assets := payload.assets }],
           fs := s.fs } := by
  unfold create_page at h
  cases hg : generate_slug 8 s.pages toks with
  | none => rw [hg] at h; cases h
  | some slug =>
    rw [hg] at h
    simp only [Option.some.injEq, Prod.mk.injEq] at h
    obtain ⟨hr, hs⟩ := h
    subst hr
    subst hs
    refine ⟨?_, rfl, rfl⟩
    simp only


end TempShare

namespace TempShare

/-- The sanitized slug keeps at most `n` characters, all alphanumeric. -/
theorem sanitizeSlug_length_le (tok : String) (n : Nat) :
    (sanitizeSlug tok n).length ≤ n := by
  have : (sanitizeSlug tok n).length = ((tok.toList.filter isAlnumChar).take n).length := rfl
  rw [this, List.length_take]
  exact min_le_left _ _

/-- Every character of the sanitized slug is alphanumeric. -/
theorem sanitizeSlug_alnum (tok : String) (n : Nat) :
    ∀ c ∈ (sanitizeSlug tok n).toList, isAlnumChar c = true := by
  intro c hc
  have hc' : c ∈ (tok.toList.filter isAlnumChar).take n := hc
  have := List.mem_filter.mp (List.mem_of_mem_take hc')
  exact this.2

/-- C4 as written is false on the code: the sanitization step can strip the
`-` and `_` characters of the url-safe token down to fewer than the requested
number of characters.  Concretely, for the 11-character token `"ab--cd__ef-"`
(a possible output of `secrets.token_urlsafe(8)`), `generate_slug` with
requested length 8 returns `"abcdef"`, of length 6. -/
theorem generate_slug_exact_length_cx :
    generate_slug 8 [] ["ab--cd__ef-"] = some "abcdef" ∧
    ¬ (("abcdef" : String).length = 8) := by
  exact ⟨rfl, by decide⟩

/-- C4 (amended): every slug returned by `generate_slug` is non-empty, has
length at most the requested length, and consists of alphanumeric characters
only. -/
theorem generate_slug_length_le_alnum
    (n : Nat) (pages : List PageDoc) (toks : List String) (s : String)
    (h : generate_slug n pages toks = some s) :
    0 < s.length ∧ s.length ≤ n ∧ ∀ c ∈ s.toList, isAlnumChar c = true := by
  obtain ⟨hne, _, tok, _, hs⟩ := generate_slug_inv h
  subst hs
  refine ⟨?_, sanitizeSlug_length_le tok n, sanitizeSlug_alnum tok n⟩
  by_contra hz
  push_neg at hz
  have : sanitizeSlug tok n = "" := by
    have hlen : (sanitizeSlug tok n).length = 0 := Nat.le_zero.mp hz
    exact String.ext (List.length_eq_zero.mp hlen)
  exact hne this

/-- Witness for C4 (amended) at a concrete token stream. -/
theorem generate_slug_length_le_alnum_witness :
    0 < ("abcdefgh" : String).length ∧ ("abcdefgh" : String).length ≤ 8 ∧
    ∀ c ∈ ("abcdefgh" : String).toList, isAlnumChar c = true :=
  generate_slug_length_le_alnum 8 [] ["abcdefgh123"] "abcdefgh" rfl

/-- C5: a slug accepted by `generate_slug` does not collide with any slug
raw-present in the store (alive or expired alike — the check is
`count_documents({"slug": slug}) == 0`, pure presence), and two pages created
back-to-back therefore receive differing slugs. -/
theorem generate_slug_no_collision
    (n : Nat) (pages : List PageDoc) (toks : List String) (s : String)
    (h : generate_slug n pages toks = some s) :
    (∀ d ∈ pages, d.slug ≠ s) ∧
    (∀ (p1 p2 : PageCreate) (t1 t2 : Time) (i1 i2 : Nat)
       (tk1 tk2 : List String) (st s1 s2 : ServerState) (r1 r2 : CreateResponse),
       create_page p1 t1 i1 tk1 st = some (r1, s1) →
       create_page p2 t2 i2 tk2 s1 = some (r2, s2) →
       r1.slug ≠ r2.slug) := by
  constructor
  · exact countSlug_eq_zero (generate_slug_inv h).2.1
  · intro p1 p2 t1 t2 i1 i2 tk1 tk2 st s1 s2 r1 r2 h1 h2
    obtain ⟨_, _, hs1⟩ := create_page_inv h1
    obtain ⟨hg2, _, _⟩ := create_page_inv h2
    have hfresh : ∀ d ∈ s1.pages, d.slug ≠ r2.slug :=
      countSlug_eq_zero (generate_slug_inv hg2).2.1
    have hdoc : ({ id := i1, slug := r1.slug, html := p1.html,
                   created_at := t1, expires_at := t1 + ttlOf p1,
                   assets := p1.assets } : PageDoc) ∈ s1.pages := by
      rw [hs1]
      simp
    have := hfresh _ hdoc
    simpa using this

/-- Witness for C5 at a concrete store and token stream: the stored slug
differs from the freshly generated one. -/
theorem generate_slug_no_collision_witness :
    ({ id := 1, slug := "abcdefgh", html := "x", created_at := 0,
       expires_at := 600, assets := [] } : PageDoc).slug ≠ "zzzzyyyy" :=
  (generate_slug_no_collision 8
    [{ id := 1, slug := "abcdefgh", html := "x", created_at := 0,
       expires_at := 600, assets := [] }]
    ["abcdefgh123", "zzzzyyyyxx1"] "zzzzyyyy" rfl).1
    { id := 1, slug := "abcdefgh", html := "x", created_at := 0,
      expires_at := 600, assets := [] } (by decide)

end TempShare

namespace TempShare

/-- Membership after `os.remove`. -/
theorem mem_removeFile {fs : List String} {p q : String} :
    q ∈ removeFile fs p ↔ q ∈ fs ∧ q ≠ p := by
  simp [removeFile]

/-- Resolution hits the cwd-relative candidate when it exists. -/
theorem resolveAsset_pos1 {cwd : String} {fs : List String} {asset : String}
    (h1 : joinPath cwd (lstripSlash asset) ∈ fs) :
    resolveAsset cwd fs asset = some (joinPath cwd (lstripSlash asset)) := by
  simp [resolveAsset, h1]

/-- Resolution falls back to the basename under the upload dir. -/
theorem resolveAsset_pos2 {cwd : String} {fs : List String} {asset : String}
    (h1 : joinPath cwd (lstripSlash asset) ∉ fs)
    (h2 : joinPath (uploadDir cwd) (basename (lstripSlash asset)) ∈ fs) :
    resolveAsset cwd fs asset =
      some (joinPath (uploadDir cwd) (basename (lstripSlash asset))) := by
  simp [resolveAsset, h1, h2]

/-- Resolution yields `none` when neither candidate exists. -/
theorem resolveAsset_neg {cwd : String} {fs : List String} {asset : String}
    (h1 : joinPath cwd (lstripSlash asset) ∉ fs)
    (h2 : joinPath (uploadDir cwd) (basename (lstripSlash asset)) ∉ fs) :
    resolveAsset cwd fs asset = none := by
  simp [resolveAsset, h1, h2]

/-- Deleting when nothing resolves is a no-op. -/
theorem deleteAsset_of_none {cwd : String} {fs : List String} {asset : String}
    (h : resolveAsset cwd fs asset = none) : deleteAsset cwd fs asset = fs := by
  simp [deleteAsset, h]

/-- Deleting removes exactly the resolved path. -/
theorem deleteAsset_of_some {cwd : String} {fs : List String} {asset p : String}
    (h : resolveAsset cwd fs asset = some p) :
    deleteAsset cwd fs asset = removeFile fs p := by
  simp [deleteAsset, h]

end TempShare

namespace TempShare

/-- C9: asset deletion resolves the reference by trying the
leading-slash-stripped path under the working root, falling back to the base
filename under the upload directory; a missing file is no error (the deletion
is a total no-op), one deletion removes the resolved file, and deleting the
same reference a second time leaves nothing left to resolve (and a third
deletion changes nothing), so repeated deletion never raises and ends with
the file absent. -/
theorem deleteAsset_resolution_and_idempotence
    (cwd : String) (fs : List String) (asset : String) :
    (resolveAsset cwd fs asset = none → deleteAsset cwd fs asset = fs) ∧
    (∀ p, resolveAsset cwd fs asset = some p →
       (p = joinPath cwd (lstripSlash asset) ∧ p ∈ fs) ∨
       (joinPath cwd (lstripSlash asset) ∉ fs ∧
        p = joinPath (uploadDir cwd) (basename (lstripSlash asset)) ∧ p ∈ fs)) ∧
    (∀ p, resolveAsset cwd fs asset = some p → p ∉ deleteAsset cwd fs asset) ∧
    resolveAsset cwd (deleteAsset cwd (deleteAsset cwd fs asset) asset) asset = none ∧
    deleteAsset cwd (deleteAsset cwd (deleteAsset cwd fs asset) asset) asset =
      deleteAsset cwd (deleteAsset cwd fs asset) asset := by
  refine ⟨deleteAsset_of_none, ?_, ?_, ?_⟩
  · intro p hp
    by_cases h1 : joinPath cwd (lstripSlash asset) ∈ fs
    · rw [resolveAsset_pos1 h1] at hp
      obtain rfl : joinPath cwd (lstripSlash asset) = p := Option.some.inj hp
      exact Or.inl ⟨rfl, h1⟩
    · by_cases h2 : joinPath (uploadDir cwd) (basename (lstripSlash asset)) ∈ fs
      · rw [resolveAsset_pos2 h1 h2] at hp
        obtain rfl : joinPath (uploadDir cwd) (basename (lstripSlash asset)) = p :=
          Option.some.inj hp
        exact Or.inr ⟨h1, rfl, h2⟩
      · rw [resolveAsset_neg h1 h2] at hp
        cases hp
  · intro p hp
    rw [deleteAsset_of_some hp]
    intro hmem
    exact (mem_removeFile.mp hmem).2 rfl
  · have key : resolveAsset cwd (deleteAsset cwd (deleteAsset cwd fs asset) asset) asset = none := by
      by_cases h1 : joinPath cwd (lstripSlash asset) ∈ fs
      · have hd1 : deleteAsset cwd fs asset =
            removeFile fs (joinPath cwd (lstripSlash asset)) :=
          deleteAsset_of_some (resolveAsset_pos1 h1)
        have hn1 : joinPath cwd (lstripSlash asset) ∉ deleteAsset cwd fs asset := by
          rw [hd1]
          intro hmem
          exact (mem_removeFile.mp hmem).2 rfl
        by_cases h2 : joinPath (uploadDir cwd) (basename (lstripSlash asset)) ∈
            deleteAsset cwd fs asset
        · have hd2 : deleteAsset cwd (deleteAsset cwd fs asset) asset =
              removeFile (deleteAsset cwd fs asset)
                (joinPath (uploadDir cwd) (basename (lstripSlash asset))) :=
            deleteAsset_of_some (resolveAsset_pos2 hn1 h2)
          refine resolveAsset_neg ?_ ?_
          · rw [hd2]
            intro hmem
            exact hn1 (mem_removeFile.mp hmem).1
          · rw [hd2]
            intro hmem
            exact (mem_removeFile.mp hmem).2 rfl
        · have hd2 : deleteAsset cwd (deleteAsset cwd fs asset) asset =
              deleteAsset cwd fs asset :=
            deleteAsset_of_none (resolveAsset_neg hn1 h2)
          rw [hd2]
          exact resolveAsset_neg hn1 h2
      · by_cases h2 : joinPath (uploadDir cwd) (basename (lstripSlash asset)) ∈ fs
        · have hd1 : deleteAsset cwd fs asset =
              removeFile fs (joinPath (uploadDir cwd) (basename (lstripSlash asset))) :=
            deleteAsset_of_some (resolveAsset_pos2 h1 h2)
          have hn1 : joinPath cwd (lstripSlash asset) ∉ deleteAsset cwd fs asset := by
            rw [hd1]
            intro hmem
            exact h1 (mem_removeFile.mp hmem).1
          have hn2 : joinPath (uploadDir cwd) (basename (lstripSlash asset)) ∉
              deleteAsset cwd fs asset := by
            rw [hd1]
            intro hmem
            exact (mem_removeFile.mp hmem).2 rfl
          have hd2 : deleteAsset cwd (deleteAsset cwd fs asset) asset =
              deleteAsset cwd fs asset :=
            deleteAsset_of_none (resolveAsset_neg hn1 hn2)
          rw [hd2]
          exact resolveAsset_neg hn1 hn2
        · have hd1 : deleteAsset cwd fs asset = fs :=
            deleteAsset_of_none (resolveAsset_neg h1 h2)
          rw [hd1]
          rw [deleteAsset_of_none (resolveAsset_neg h1 h2)]
          exact resolveAsset_neg h1 h2
    exact ⟨key, deleteAsset_of_none key⟩

/-- Witness for C9 at a concrete filesystem: the reference
`/uploads/pic.png` resolves under the working root `/srv`, is removed by the
first deletion, and the second deletion has nothing left. -/
theorem deleteAsset_resolution_and_idempotence_witness :
    deleteAsset "/srv" ["/srv/uploads/pic.png"] "/uploads/pic.png" = [] ∧
    resolveAsset "/srv"
      (deleteAsset "/srv" (deleteAsset "/srv" ["/srv/uploads/pic.png"] "/uploads/pic.png")
        "/uploads/pic.png") "/uploads/pic.png" = none := by
  refine ⟨by decide, ?_⟩
  exact (deleteAsset_resolution_and_idempotence "/srv" ["/srv/uploads/pic.png"]
    "/uploads/pic.png").2.2.2.1

end TempShare

namespace TempShare

/-- Behaviour of `get_page` on an absent slug: 404, state untouched. -/
theorem get_page_eq_of_find_none (cwd : String) {slug : String} (now : Time)
    {s : ServerState}
    (h : s.pages.find? (fun d => d.slug = slug) = none) :
    get_page cwd slug now s = (GetResult.notFound, s) := by
  unfold get_page
  rw [h]

/-- Behaviour of `get_page` on an expired document: 410 after deleting the document and its
resolved assets. -/
theorem get_page_eq_of_expired (cwd : String) {slug : String} {now : Time}
    {s : ServerState}
    {doc : PageDoc} (hfind : s.pages.find? (fun d => d.slug = slug) = some doc)
    (hexp : doc.expires_at ≤ now) :
    get_page cwd slug now s =
      (GetResult.expired,
       { pages := s.pages.eraseP (fun d => d.id = doc.id),
         fs := deleteAssets cwd s.fs doc.assets }) := by
  unfold get_page
  rw [hfind]
  dsimp only
  rw [if_pos hexp]

/-- Behaviour of `get_page` on an alive document: the payload, state untouched. -/
theorem get_page_eq_of_alive (cwd : String) {slug : String} {now : Time}
    {s : ServerState}
    {doc : PageDoc} (hfind : s.pages.find? (fun d => d.slug = slug) = some doc)
    (halive : now < doc.expires_at) :
    get_page cwd slug now s =
      (GetResult.ok doc.slug doc.html doc.expires_at
        (max 0 (doc.expires_at - now)) doc.assets, s) := by
  unfold get_page
  rw [hfind]
  dsimp only
  rw [if_neg (not_le.mpr halive)]

/-- The document inserted by a successful `create_page` is found first by a
lookup for its slug in the successor state (no earlier document matches,
thanks to the generation-time collision check). -/
theorem find_after_create {payload : PageCreate} {now : Time} {newId : Nat}
    {toks : List String} {st : ServerState} {resp : CreateResponse}
    {s1 : ServerState} (hc : create_page payload now newId toks st = some (resp, s1)) :
    s1.pages.find? (fun d => d.slug = resp.slug) =
      some { id := newId, slug := resp.slug, html := payload.html,
             created_at := now, expires_at := now + ttlOf payload,
             assets := payload.assets } := by
  obtain ⟨hg, _, hs1⟩ := create_page_inv hc
  rw [hs1]
  simp only [List.find?_append]
  have hnone : st.pages.find? (fun d => d.slug = resp.slug) = none := by
    rw [List.find?_eq_none]
    intro x hx
    simp only [decide_eq_true_eq]
    exact countSlug_eq_zero (generate_slug_inv hg).2.1 x hx
  rw [hnone]
  simp

/-- The expiry timestamp in a successful `create_page` response. -/
theorem create_page_expires {payload : PageCreate} {now : Time} {newId : Nat}
    {toks : List String} {st : ServerState} {resp : CreateResponse}
    {s1 : ServerState} (hc : create_page payload now newId toks st = some (resp, s1)) :
    resp.expires_at = now + ttlOf payload ∧ resp.ttl_seconds = ttlOf payload := by
  obtain ⟨-, hr, -⟩ := create_page_inv hc
  constructor
  · rw [hr]
  · rw [hr]

/-- Reading an alive record created by `create_page` returns the stored
content and assets verbatim and leaves the state untouched. -/
theorem get_after_create (cwd : String) {payload : PageCreate} {now : Time}
    {newId : Nat} {toks : List String} {st : ServerState} {resp : CreateResponse}
    {s1 : ServerState} {t : Time}
    (hc : create_page payload now newId toks st = some (resp, s1))
    (halive : t < resp.expires_at) :
    get_page cwd resp.slug t s1 =
      (GetResult.ok resp.slug payload.html resp.expires_at
        (max 0 (resp.expires_at - t)) payload.assets, s1) := by
  have hexp := (create_page_expires hc).1
  have := get_page_eq_of_alive cwd (find_after_create hc)
    (by simpa [← hexp] using halive)
  rw [this]
  simp [← hexp]

end TempShare

namespace TempShare

/-- C1: a read of a stored slug at a time at or after its `expires_at`
(aliveness being `now < expires_at`) deletes the record from the store,
best-effort deletes every resolved asset file, and answers 410 Expired — all
within the same `get_page` call, and distinct from the 404 NotFound answer
reserved for slugs with no stored record; the content is never returned. -/
theorem get_page_expired_deletes_then_rejects
    (cwd slug : String) (now : Time) (s : ServerState) (doc : PageDoc)
    (hfind : s.pages.find? (fun d => d.slug = slug) = some doc)
    (hexp : doc.expires_at ≤ now)
    (hids : (s.pages.map (fun d => d.id)).Nodup) :
    get_page cwd slug now s =
      (GetResult.expired,
       { pages := s.pages.eraseP (fun d => d.id = doc.id),
         fs := deleteAssets cwd s.fs doc.assets }) ∧
    doc ∉ (get_page cwd slug now s).2.pages ∧
    (∀ (slug' : String) (s' : ServerState),
       s'.pages.find? (fun d => d.slug = slug') = none →
       get_page cwd slug' now s' = (GetResult.notFound, s')) := by
  have hmain := get_page_eq_of_expired cwd hfind hexp
  refine ⟨hmain, ?_, ?_⟩
  · rw [hmain]
    exact not_mem_eraseP_id hids (List.mem_of_find?_eq_some hfind)
  · intro slug' s' hnone
    exact get_page_eq_of_find_none cwd now hnone

/-- Witness for C1: one expired record with one resolvable asset; the read
empties both the store and the filesystem and answers 410. -/
theorem get_page_expired_deletes_then_rejects_witness :
    get_page "/srv" "abc" 100
      { pages := [{ id := 1, slug := "abc", html := "<p>hi</p>", created_at := 0,
                    expires_at := 100, assets := ["/uploads/pic.png"] }],
        fs := ["/srv/uploads/pic.png"] } =
      (GetResult.expired, { pages := [], fs := [] }) :=
  ((get_page_expired_deletes_then_rejects "/srv" "abc" 100
      { pages := [{ id := 1, slug := "abc", html := "<p>hi</p>", created_at := 0,
                    expires_at := 100, assets := ["/uploads/pic.png"] }],
        fs := ["/srv/uploads/pic.png"] }
      { id := 1, slug := "abc", html := "<p>hi</p>", created_at := 0,
        expires_at := 100, assets := ["/uploads/pic.png"] }
      rfl (by decide) (by decide)).1).trans (by decide)

/-- C3: once a read has answered 410 for a slug (and so deleted the record),
every later read of that slug answers 404 NotFound, never 410, at any time. -/
theorem get_page_expired_then_not_found
    (cwd slug : String) (now : Time) (s s' : ServerState)
    (hids : (s.pages.map (fun d => d.id)).Nodup)
    (huniq : (s.pages.filter (fun d => d.slug = slug)).length ≤ 1)
    (hrun : get_page cwd slug now s = (GetResult.expired, s')) :
    ∀ now' : Time, get_page cwd slug now' s' = (GetResult.notFound, s') := by
  intro now'
  cases hfind : s.pages.find? (fun d => d.slug = slug) with
  | none =>
    rw [get_page_eq_of_find_none cwd now hfind] at hrun
    exact absurd (congrArg Prod.fst hrun) (by simp)
  | some doc =>
    by_cases hexp : doc.expires_at ≤ now
    · rw [get_page_eq_of_expired cwd hfind hexp] at hrun
      have hs' : s' = { pages := s.pages.eraseP (fun d => d.id = doc.id),
                        fs := deleteAssets cwd s.fs doc.assets } := by
        have := congrArg Prod.snd hrun
        simpa using this.symm
      subst hs'
      refine get_page_eq_of_find_none cwd now' ?_
      rw [List.find?_eq_none]
      intro x hx
      simp only [decide_eq_true_eq]
      intro hxs
      have hxmem : x ∈ s.pages := mem_of_mem_eraseP hx
      have hdocslug : doc.slug = slug := by
        have := List.find?_some hfind
        simpa using this
      have hdocmem : doc ∈ s.pages := List.mem_of_find?_eq_some hfind
      have hxf : x ∈ s.pages.filter (fun d => d.slug = slug) := by
        rw [List.mem_filter]
        exact ⟨hxmem, by simp [hxs]⟩
      have hdf : doc ∈ s.pages.filter (fun d => d.slug = slug) := by
        rw [List.mem_filter]
        exact ⟨hdocmem, by simp [hdocslug]⟩
      have hxd : x = doc := mem_singleton_of_length_le_one huniq hxf hdf
      exact not_mem_eraseP_id hids hdocmem (hxd ▸ hx)
    · rw [get_page_eq_of_alive cwd hfind (not_le.mp hexp)] at hrun
      exact absurd (congrArg Prod.fst hrun) (by simp)

/-- Witness for C3: after the expired read of the C1 witness, a second read
of the same slug answers 404. -/
theorem get_page_expired_then_not_found_witness :
    get_page "/srv" "abc" 101 { pages := [], fs := [] } =
      (GetResult.notFound, { pages := [], fs := [] }) :=
  get_page_expired_then_not_found "/srv" "abc" 100
    { pages := [{ id := 1, slug := "abc", html := "<p>hi</p>", created_at := 0,
                  expires_at := 100, assets := ["/uploads/pic.png"] }],
      fs := ["/srv/uploads/pic.png"] }
    { pages := [], fs := [] }
    (by decide) (by decide) (by decide) 101

end TempShare

namespace TempShare

/-- C6: reading the slug of a created record strictly before its `expires_at`
returns the stored content and asset list byte-for-byte and in order, without
touching the state. -/
theorem create_then_read_roundtrip
    (cwd : String) (payload : PageCreate) (now : Time) (newId : Nat)
    (toks : List String) (st : ServerState) (resp : CreateResponse)
    (s1 : ServerState) (t : Time)
    (hc : create_page payload now newId toks st = some (resp, s1))
    (halive : t < resp.expires_at) :
    get_page cwd resp.slug t s1 =
      (GetResult.ok resp.slug payload.html resp.expires_at
        (max 0 (resp.expires_at - t)) payload.assets, s1) :=
  get_after_create cwd hc halive

/-- Witness for C6: a concrete create followed by an in-TTL read returns the
stored html and assets verbatim. -/
theorem create_then_read_roundtrip_witness :
    get_page "/srv" "abcdefgh" 30
      { pages := [{ id := 1, slug := "abcdefgh", html := "<p>hi</p>",
                    created_at := 0, expires_at := 60,
                    assets := ["/uploads/a.png", "/uploads/b.png"] }],
        fs := [] } =
      (GetResult.ok "abcdefgh" "<p>hi</p>" 60 (max 0 (60 - 30))
        ["/uploads/a.png", "/uploads/b.png"],
       { pages := [{ id := 1, slug := "abcdefgh", html := "<p>hi</p>",
                     created_at := 0, expires_at := 60,
                     assets := ["/uploads/a.png", "/uploads/b.png"] }],
         fs := [] }) :=
  create_then_read_roundtrip "/srv"
    { html := "<p>hi</p>", ttl_seconds := some 60,
      assets := ["/uploads/a.png", "/uploads/b.png"] }
    0 1 ["abcdefgh123"] { pages := [], fs := [] }
    { slug := "abcdefgh", url := "/p/abcdefgh", expires_at := 60, ttl_seconds := 60 }
    { pages := [{ id := 1, slug := "abcdefgh", html := "<p>hi</p>",
                  created_at := 0, expires_at := 60,
                  assets := ["/uploads/a.png", "/uploads/b.png"] }],
      fs := [] }
    30 rfl (by decide)

/-- C7: a read of an alive record (`now < expires_at`) answers the record
with `remaining_seconds = max(0, expires_at - now) ≥ 0`; and for a record
created with a positive TTL `t`, any read between creation time and expiry
reports `remaining_seconds` in `[0, t]`. -/
theorem get_page_alive_remaining
    (cwd slug : String) (now : Time) (s : ServerState) (doc : PageDoc)
    (hfind : s.pages.find? (fun d => d.slug = slug) = some doc)
    (halive : now < doc.expires_at) :
    get_page cwd slug now s =
      (GetResult.ok doc.slug doc.html doc.expires_at
        (max 0 (doc.expires_at - now)) doc.assets, s) ∧
    0 ≤ max 0 (doc.expires_at - now) ∧
    (∀ (payload : PageCreate) (t : Int) (now0 : Time) (newId : Nat)
       (toks : List String) (st : ServerState) (resp : CreateResponse)
       (s1 : ServerState) (now' : Time),
       payload.ttl_seconds = some t → 0 < t →
       create_page payload now0 newId toks st = some (resp, s1) →
       now0 ≤ now' → now' < resp.expires_at →
       (get_page cwd resp.slug now' s1).1 =
         GetResult.ok resp.slug payload.html resp.expires_at
           (max 0 (resp.expires_at - now')) payload.assets ∧
       0 ≤ max 0 (resp.expires_at - now') ∧
       max 0 (resp.expires_at - now') ≤ t) := by
  refine ⟨get_page_eq_of_alive cwd hfind halive, le_max_left 0 _, ?_⟩
  intro payload t now0 newId toks st resp s1 now' httl htpos hc hle hlt
  have hrun := get_after_create cwd hc hlt
  have hres : (get_page cwd resp.slug now' s1).1 =
      GetResult.ok resp.slug payload.html resp.expires_at
        (max 0 (resp.expires_at - now')) payload.assets := by
    rw [hrun]
  have httlof : ttlOf payload = t := by
    unfold ttlOf
    rw [httl]
    dsimp only
    rw [if_neg (by omega)]
  have hexp : resp.expires_at = now0 + t := by
    rw [(create_page_expires hc).1, httlof]
  refine ⟨hres, le_max_left 0 _, ?_⟩
  have hx : 0 ≤ resp.expires_at - now' := Int.sub_nonneg.mpr (le_of_lt hlt)
  rw [max_eq_right hx, hexp]
  calc now0 + t - now' ≤ now0 + t - now0 := sub_le_sub_left hle _
  _ = t := by ring

/-- Witness for C7: an alive read at `now = 40` of a record expiring at 100
reports `remaining_seconds = max 0 60`. -/
theorem get_page_alive_remaining_witness :
    get_page "/srv" "abc" 40
      { pages := [{ id := 1, slug := "abc", html := "<p>hi</p>", created_at := 0,
                    expires_at := 100, assets := [] }], fs := [] } =
      (GetResult.ok "abc" "<p>hi</p>" 100 (max 0 (100 - 40)) [],
       { pages := [{ id := 1, slug := "abc", html := "<p>hi</p>", created_at := 0,
                     expires_at := 100, assets := [] }], fs := [] }) :=
  (get_page_alive_remaining "/srv" "abc" 40
    { pages := [{ id := 1, slug := "abc", html := "<p>hi</p>", created_at := 0,
                  expires_at := 100, assets := [] }], fs := [] }
    { id := 1, slug := "abc", html := "<p>hi</p>", created_at := 0,
      expires_at := 100, assets := [] }
    rfl (by decide)).1

end TempShare

namespace TempShare

/-- Liveness classification shared by the two read endpoints. -/
inductive AccessOutcome where
  | notFound : AccessOutcome
  | expired : AccessOutcome
  | ok : AccessOutcome
deriving DecidableEq, Repr

/-- Classification of a `get_page` answer. -/
def GetResult.outcome : GetResult → AccessOutcome
  | .notFound => .notFound
  | .expired => .expired
  | .ok _ _ _ _ _ => .ok

/-- Classification of a `view_page` answer. -/
def ViewResult.outcome : ViewResult → AccessOutcome
  | .notFound => .notFound
  | .expired _ => .expired
  | .ok _ => .ok

/-- C10: for every slug, time, and state, the data read (`get_page`) and the
render read (`view_page`) make the same liveness decision and perform the
same store/filesystem transition: both answer not-found exactly when the slug
is absent (leaving the state alone), both delete the record and its resolved
assets and answer expired exactly when `expires_at <= now`, and both leave
the state untouched when the record is alive. -/
theorem view_get_refinement (cwd slug : String) (now : Time) (s : ServerState) :
    (view_page cwd slug now s).1.outcome = (get_page cwd slug now s).1.outcome ∧
    (view_page cwd slug now s).2 = (get_page cwd slug now s).2 ∧
    (s.pages.find? (fun d => d.slug = slug) = none →
       view_page cwd slug now s = (ViewResult.notFound, s) ∧
       get_page cwd slug now s = (GetResult.notFound, s)) ∧
    (∀ doc, s.pages.find? (fun d => d.slug = slug) = some doc →
       (doc.expires_at ≤ now →
          (view_page cwd slug now s).1 = ViewResult.expired expiredHtmlBody ∧
          (get_page cwd slug now s).1 = GetResult.expired ∧
          (view_page cwd slug now s).2 =
            { pages := s.pages.eraseP (fun d => d.id = doc.id),
              fs := deleteAssets cwd s.fs doc.assets }) ∧
       (now < doc.expires_at →
          (view_page cwd slug now s).2 = s ∧ (get_page cwd slug now s).2 = s)) := by
  unfold view_page get_page
  cases hfind : s.pages.find? (fun d => d.slug = slug) with
  | none =>
    refine ⟨rfl, rfl, ?_, ?_⟩
    · intro h
      exact ⟨rfl, rfl⟩
    · intro doc hdoc
      exact Option.noConfusion hdoc
  | some doc =>
    dsimp only
    by_cases hexp : doc.expires_at ≤ now
    · rw [if_pos hexp, if_pos hexp]
      refine ⟨rfl, rfl, ?_, ?_⟩
      · intro h
        exact Option.noConfusion h
      · intro doc' hdoc'
        have hdd : doc = doc' := by injection hdoc'
        subst hdd
        refine ⟨?_, ?_⟩
        · intro h
          exact ⟨rfl, rfl, rfl⟩
        · intro hlt
          exact absurd hexp (not_le.mpr hlt)
    · rw [if_neg hexp, if_neg hexp]
      refine ⟨rfl, rfl, ?_, ?_⟩
      · intro h
        exact Option.noConfusion h
      · intro doc' hdoc'
        have hdd : doc = doc' := by injection hdoc'
        subst hdd
        refine ⟨?_, ?_⟩
        · intro hle
          exact absurd hle hexp
        · intro h
          exact ⟨rfl, rfl⟩

/-- Witness for C10 at a concrete expired record: both endpoints transition
to the same swept state. -/
theorem view_get_refinement_witness :
    (view_page "/srv" "abc" 100
      { pages := [{ id := 1, slug := "abc", html := "<p>hi</p>", created_at := 0,
                    expires_at := 100, assets := ["/uploads/pic.png"] }],
        fs := ["/srv/uploads/pic.png"] }).2 =
    (get_page "/srv" "abc" 100
      { pages := [{ id := 1, slug := "abc", html := "<p>hi</p>", created_at := 0,
                    expires_at := 100, assets := ["/uploads/pic.png"] }],
        fs := ["/srv/uploads/pic.png"] }).2 :=
  (view_get_refinement "/srv" "abc" 100
    { pages := [{ id := 1, slug := "abc", html := "<p>hi</p>", created_at := 0,
                  expires_at := 100, assets := ["/uploads/pic.png"] }],
      fs := ["/srv/uploads/pic.png"] }).2.1

end TempShare

namespace TempShare

/-- Membership in a bulk delete by `_id`. -/
theorem mem_delete_many {ids : List Nat} {pages : List PageDoc} {d : PageDoc} :
    d ∈ delete_many ids pages ↔ d ∈ pages ∧ d.id ∉ ids := by
  simp [delete_many]

/-- Membership in the expiry snapshot. -/
theorem mem_sweepSnapshot {now : Time} {pages : List PageDoc} {d : PageDoc} :
    d ∈ sweepSnapshot now pages ↔ d ∈ pages ∧ d.expires_at ≤ now := by
  simp [sweepSnapshot]

/-- The `_id` of an expired stored document is in the snapshot batch. -/
theorem id_mem_snapshot_ids {now : Time} {pages : List PageDoc} {d : PageDoc}
    (hd : d ∈ pages) (hexp : d.expires_at ≤ now) :
    d.id ∈ (sweepSnapshot now pages).map (fun d => d.id) :=
  List.mem_map_of_mem _ (mem_sweepSnapshot.mpr ⟨hd, hexp⟩)

/-- Core sweep lemma, allowing documents inserted between the snapshot and
the bulk delete: deleting the snapshot batch by `_id` removes exactly the
documents that were expired at the snapshot, never a live one, and never a
document inserted after the snapshot (whatever its expiry). -/
theorem delete_many_snapshot_spec (now : Time) (pages inserted : List PageDoc)
    (hnodup : ((pages ++ inserted).map (fun d => d.id)).Nodup) :
    ((∀ d ∈ inserted, now < d.expires_at) →
       ∀ d ∈ delete_many ((sweepSnapshot now pages).map (fun d => d.id))
           (pages ++ inserted), now < d.expires_at) ∧
    (∀ d ∈ pages ++ inserted, now < d.expires_at →
       d ∈ delete_many ((sweepSnapshot now pages).map (fun d => d.id))
         (pages ++ inserted)) ∧
    (∀ d ∈ inserted,
       d ∈ delete_many ((sweepSnapshot now pages).map (fun d => d.id))
         (pages ++ inserted)) := by
  have hmap : (pages ++ inserted).map (fun d => d.id) =
      pages.map (fun d => d.id) ++ inserted.map (fun d => d.id) :=
    List.map_append _ _ _
  have hdisj : (pages.map (fun d => d.id)).Disjoint (inserted.map (fun d => d.id)) := by
    rw [hmap] at hnodup
    exact (List.nodup_append.mp hnodup).2.2
  have inj := List.inj_on_of_nodup_map hnodup
  refine ⟨?_, ?_, ?_⟩
  · intro hins d hd
    obtain ⟨hmem, hnid⟩ := mem_delete_many.mp hd
    rcases List.mem_append.mp hmem with hp | hi
    · by_contra hlt
      exact hnid (id_mem_snapshot_ids hp (not_lt.mp hlt))
    · exact hins d hi
  · intro d hd hlt
    refine mem_delete_many.mpr ⟨hd, ?_⟩
    intro hid
    obtain ⟨e, he, heid⟩ := List.mem_map.mp hid
    obtain ⟨hep, hee⟩ := mem_sweepSnapshot.mp he
    have : e = d := inj (List.mem_append_left _ hep) hd heid
    subst this
    exact absurd hlt (not_lt.mpr hee)
  · intro d hd
    refine mem_delete_many.mpr ⟨List.mem_append_right _ hd, ?_⟩
    intro hid
    obtain ⟨e, he, heid⟩ := List.mem_map.mp hid
    obtain ⟨hep, -⟩ := mem_sweepSnapshot.mp he
    exact hdisj (heid ▸ List.mem_map_of_mem (fun d => d.id) hep)
      (List.mem_map_of_mem (fun d => d.id) hd)

/-- C2: after one eager sweep cycle that snapshots its start time, no record
expired at the snapshot time remains, no record alive at the snapshot time
was removed, and — because the bulk delete is by the snapshot identities,
not a fresh expiry re-query — documents inserted after the snapshot are
never removed, whatever their expiry. -/
theorem sweep_cycle_snapshot_delete
    (cwd : String) (now : Time) (pages inserted : List PageDoc) (fs : List String)
    (hnodup : ((pages ++ inserted).map (fun d => d.id)).Nodup) :
    ((∀ d ∈ inserted, now < d.expires_at) →
       ∀ d ∈ delete_many ((sweepSnapshot now pages).map (fun d => d.id))
           (pages ++ inserted), now < d.expires_at) ∧
    (∀ d ∈ pages ++ inserted, now < d.expires_at →
       d ∈ delete_many ((sweepSnapshot now pages).map (fun d => d.id))
         (pages ++ inserted)) ∧
    (∀ d ∈ inserted,
       d ∈ delete_many ((sweepSnapshot now pages).map (fun d => d.id))
         (pages ++ inserted)) ∧
    (∀ d ∈ (cleanup_cycle cwd now { pages := pages, fs := fs }).pages,
       now < d.expires_at) ∧
    (∀ d ∈ pages, now < d.expires_at →
       d ∈ (cleanup_cycle cwd now { pages := pages, fs := fs }).pages) := by
  obtain ⟨h1, h2, h3⟩ := delete_many_snapshot_spec now pages inserted hnodup
  have hp : (pages.map (fun d => d.id)).Nodup := by
    rw [List.map_append] at hnodup
    exact (List.nodup_append.mp hnodup).1
  have hpnil : ((pages ++ ([] : List PageDoc)).map (fun d => d.id)).Nodup := by
    rw [List.append_nil]
    exact hp
  obtain ⟨g1, g2, -⟩ := delete_many_snapshot_spec now pages [] hpnil
  refine ⟨h1, h2, h3, ?_, ?_⟩
  · intro d hd
    by_cases hemp : (sweepSnapshot now pages).isEmpty
    · have hnilsnap : sweepSnapshot now pages = [] := List.isEmpty_iff.mp hemp
      have hpages : (cleanup_cycle cwd now { pages := pages, fs := fs }).pages = pages := by
        simp only [cleanup_cycle, hemp, if_pos]
      rw [hpages] at hd
      by_contra hlt
      have : d ∈ sweepSnapshot now pages :=
        mem_sweepSnapshot.mpr ⟨hd, not_lt.mp hlt⟩
      rw [hnilsnap] at this
      cases this
    · have hpages : (cleanup_cycle cwd now { pages := pages, fs := fs }).pages =
          delete_many ((sweepSnapshot now pages).map (fun d => d.id)) pages := by
        simp only [cleanup_cycle, hemp, if_neg, Bool.false_eq_true, not_false_iff]
      rw [hpages] at hd
      have hd' : d ∈ delete_many ((sweepSnapshot now pages).map (fun d => d.id))
          (pages ++ []) := by
        rw [List.append_nil]
        exact hd
      exact g1 (by intro x hx; cases hx) d hd'
  · intro d hd hlt
    by_cases hemp : (sweepSnapshot now pages).isEmpty
    · have hpages : (cleanup_cycle cwd now { pages := pages, fs := fs }).pages = pages := by
        simp only [cleanup_cycle, hemp, if_pos]
      rw [hpages]
      exact hd
    · have hpages : (cleanup_cycle cwd now { pages := pages, fs := fs }).pages =
          delete_many ((sweepSnapshot now pages).map (fun d => d.id)) pages := by
        simp only [cleanup_cycle, hemp, if_neg, Bool.false_eq_true, not_false_iff]
      rw [hpages]
      have := g2 d (by rw [List.append_nil]; exact hd) hlt
      rw [List.append_nil] at this
      exact this

/-- Witness for C2: with one expired and one live stored record and one
record inserted after the snapshot, the inserted record survives the
identity-based bulk delete. -/
theorem sweep_cycle_snapshot_delete_witness :
    ({ id := 3, slug := "c", html := "z", created_at := 90,
       expires_at := 300, assets := [] } : PageDoc) ∈
      delete_many
        ((sweepSnapshot 100
          [{ id := 1, slug := "a", html := "x", created_at := 0,
             expires_at := 10, assets := [] },
           { id := 2, slug := "b", html := "y", created_at := 0,
             expires_at := 200, assets := [] }]).map (fun d => d.id))
        ([{ id := 1, slug := "a", html := "x", created_at := 0,
            expires_at := 10, assets := [] },
          { id := 2, slug := "b", html := "y", created_at := 0,
            expires_at := 200, assets := [] }] ++
         [{ id := 3, slug := "c", html := "z", created_at := 90,
            expires_at := 300, assets := [] }]) :=
  (sweep_cycle_snapshot_delete "/srv" 100
    [{ id := 1, slug := "a", html := "x", created_at := 0,
       expires_at := 10, assets := [] },
     { id := 2, slug := "b", html := "y", created_at := 0,
       expires_at := 200, assets := [] }]
    [{ id := 3, slug := "c", html := "z", created_at := 90,
       expires_at := 300, assets := [] }]
    [] (by decide)).2.2.1
    { id := 3, slug := "c", html := "z", created_at := 90,
      expires_at := 300, assets := [] } (by decide)

end TempShare

namespace TempShare

/-- Reading via `get_page` never mutates a stored document: every document present after
the call was present, value-identical, before it. -/
theorem get_page_pages_subset (cwd sl : String) (n : Time) (s : ServerState) :
    ∀ d ∈ (get_page cwd sl n s).2.pages, d ∈ s.pages := by
  intro d hd
  unfold get_page at hd
  cases hfind : s.pages.find? (fun x => x.slug = sl) with
  | none =>
    rw [hfind] at hd
    exact hd
  | some doc =>
    rw [hfind] at hd
    dsimp only at hd
    by_cases hexp : doc.expires_at ≤ n
    · rw [if_pos hexp] at hd
      exact mem_of_mem_eraseP hd
    · rw [if_neg hexp] at hd
      exact hd

/-- Rendering via `view_page` never mutates a stored document either. -/
theorem view_page_pages_subset (cwd sl : String) (n : Time) (s : ServerState) :
    ∀ d ∈ (view_page cwd sl n s).2.pages, d ∈ s.pages := by
  intro d hd
  unfold view_page at hd
  cases hfind : s.pages.find? (fun x => x.slug = sl) with
  | none =>
    rw [hfind] at hd
    exact hd
  | some doc =>
    rw [hfind] at hd
    dsimp only at hd
    by_cases hexp : doc.expires_at ≤ n
    · rw [if_pos hexp] at hd
      exact mem_of_mem_eraseP hd
    · rw [if_neg hexp] at hd
      exact hd

/-- The sweep never mutates a surviving document. -/
theorem cleanup_cycle_pages_subset (cwd : String) (n : Time) (s : ServerState) :
    ∀ d ∈ (cleanup_cycle cwd n s).pages, d ∈ s.pages := by
  intro d hd
  by_cases hemp : (sweepSnapshot n s.pages).isEmpty
  · simp only [cleanup_cycle, hemp, if_pos] at hd
    exact hd
  · simp only [cleanup_cycle, hemp, Bool.false_eq_true, not_false_iff, if_neg] at hd
    exact (mem_delete_many.mp hd).1

/-- C8: a successful create stores a record with
`expires_at = created_at + ttl` where the TTL is the request value (600 when
none is given), answers the slug, the public URL `/p/slug`, the expiry
timestamp and the TTL, and no operation (`get_page`, `view_page`, eager
sweep) ever modifies the `expires_at` — or any other field — of a stored
record afterwards: records are only ever deleted wholesale, never updated. -/
theorem create_page_sets_expiry_once
    (payload : PageCreate) (now : Time) (newId : Nat) (toks : List String)
    (st : ServerState) (resp : CreateResponse) (s1 : ServerState)
    (hc : create_page payload now newId toks st = some (resp, s1))
    (hval : ∀ t, payload.ttl_seconds = some t → 60 ≤ t) :
    resp.expires_at = now + resp.ttl_seconds ∧
    (payload.ttl_seconds = none → resp.ttl_seconds = 600) ∧
    (∀ t, payload.ttl_seconds = some t → resp.ttl_seconds = t) ∧
    resp.url = "/p/" ++ resp.slug ∧
    s1.pages = st.pages ++
      [{ id := newId, slug := resp.slug, html := payload.html,
         created_at := now, expires_at := now + resp.ttl_seconds,
         assets := payload.assets }] ∧
    (∀ (cwd sl : String) (n : Time) (s : ServerState),
       ∀ d ∈ (get_page cwd sl n s).2.pages, d ∈ s.pages) ∧
    (∀ (cwd sl : String) (n : Time) (s : ServerState),
       ∀ d ∈ (view_page cwd sl n s).2.pages, d ∈ s.pages) ∧
    (∀ (cwd : String) (n : Time) (s : ServerState),
       ∀ d ∈ (cleanup_cycle cwd n s).pages, d ∈ s.pages) := by
  obtain ⟨-, hr, hs1⟩ := create_page_inv hc
  have httl : resp.ttl_seconds = ttlOf payload := by rw [hr]
  have hexp : resp.expires_at = now + ttlOf payload := by rw [hr]
  refine ⟨by rw [hexp, httl], ?_, ?_, by rw [hr], ?_,
    get_page_pages_subset, view_page_pages_subset, cleanup_cycle_pages_subset⟩
  · intro hnone
    rw [httl]
    unfold ttlOf
    rw [hnone]
    rfl
  · intro t ht
    rw [httl]
    unfold ttlOf
    rw [ht]
    dsimp only
    rw [if_neg (by have := hval t ht; omega)]
  · rw [hs1, httl]

/-- Witness for C8: a concrete create with TTL 60 at time 0 stores
`expires_at = 60` and answers url `/p/abcdefgh` and ttl 60. -/
theorem create_page_sets_expiry_once_witness :
    ({ slug := "abcdefgh", url := "/p/abcdefgh", expires_at := 60,
       ttl_seconds := 60 } : CreateResponse).expires_at =
      0 + ({ slug := "abcdefgh", url := "/p/abcdefgh", expires_at := 60,
             ttl_seconds := 60 } : CreateResponse).ttl_seconds :=
  (create_page_sets_expiry_once
    { html := "<p>hi</p>", ttl_seconds := some 60, assets := [] }
    0 1 ["abcdefgh123"] { pages := [], fs := [] }
    { slug := "abcdefgh", url := "/p/abcdefgh", expires_at := 60, ttl_seconds := 60 }
    { pages := [{ id := 1, slug := "abcdefgh", html := "<p>hi</p>",
                  created_at := 0, expires_at := 60, assets := [] }], fs := [] }
    rfl (by intro t ht; injection ht with h; omega)).1

end TempShare
